import Mathlib

/-!
Verification of the symbolic-value and residual-code-generation core
(`src/utils/generator.js` and the `AbstractValue` class) of the prepack
repository, shallowly embedded in Lean 4.

Babel AST nodes are embedded as the inductive `Node`, with one constructor
per `babel-types` builder the source uses.  Mutable JS state (the
`Generator` body list, the `PreludeGenerator` counter/caches) is embedded
as explicit state passing.  `invariant(c)` (which throws on a falsy
condition) is embedded as `Except Fault`.
-/

/-- Internal-consistency fault: what `invariant(...)` throws. -/
inductive Fault where
  | fault
deriving DecidableEq, Repr

/-- Babel AST nodes, one constructor per `babel-types` builder used by the
source (`t.identifier`, `t.memberExpression`, ...). -/
inductive Node where
  | identifier (name : String)
  | memberExpression (obj prop : Node)
  | stringLiteral (s : String)
  | booleanLiteral (b : Bool)
  | nullLiteral
  | variableDeclaration (kind : String) (declarators : List Node)
  | variableDeclarator (id init : Node)
  | expressionStatement (e : Node)
  | assignmentExpression (op : String) (left right : Node)
  | unaryExpression (op : String) (arg : Node)
  | callExpression (callee : Node) (args : List Node)
  | objectProperty (key val : Node)
  | objectExpression (props : List Node)
  | binaryExpression (op : String) (l r : Node)
  | logicalExpression (op : String) (l r : Node)
  | conditionalExpression (c t e : Node)
  | ifStatement (cond cons : Node)
  | blockStatement (stmts : List Node)
  | throwStatement (arg : Node)
  | newExpression (callee : Node) (args : List Node)
deriving Repr

/-- The type tags the type domain can resolve to: the concrete `Value`
subclasses of the source (`FunctionValue`, `NumberValue`, ...), the
deletion sentinel (`EmptyValue`) and the top element (`Value`). -/
inductive TypeTag where
  | functionT
  | undefinedT
  | nullT
  | stringT
  | booleanT
  | numberT
  | symbolT
  | objectT
  | emptyT
  | topT
deriving DecidableEq, Repr

/-- The evaluation context (`Realm`).  Only the flag this core reads is
embedded; `realm.isPartial` is the speculative/partial-mode flag. -/
structure Realm where
  speculative : Bool
deriving DecidableEq, Repr

/-- `TypesDomain`: opaque type facts; `getType()` returns a tag. -/
structure TypesDomain where
  tType : TypeTag
deriving DecidableEq, Repr

def TypesDomain.getType (t : TypesDomain) : TypeTag := t.tType

/-- `ValuesDomain`: external value-domain facts, embedded by their query
contract (`includesValueOfType` / `includesValueNotOfType`). -/
structure ValuesDomain where
  includesValueOfType : TypeTag → Bool
  includesValueNotOfType : TypeTag → Bool

/-- `ValuesDomain.topVal`: the top domain (includes everything). -/
def ValuesDomain.topVal : ValuesDomain where
  includesValueOfType := fun _ => true
  includesValueNotOfType := fun _ => true

/-- The "closure-or-fixed-node" union used for `_buildNode` on
`AbstractValue` and for the `buildNode_` argument of `derive`. -/
inductive BuildNode where
  | closure (f : List Node → Node)
  | fixed (n : Node)

/-- `buildNode_ instanceof Function ? buildNode_(nodes) : buildNode_`. -/
def BuildNode.run : BuildNode → List Node → Node
  | .closure f, ns => f ns
  | .fixed n, _ => n

/-- The fields of an `AbstractValue`, polymorphic in the type of the
dependency values so that it can be nested inside `Value`. -/
structure AVDataP (V : Type) where
  realm : Realm
  types : TypesDomain
  values : ValuesDomain
  args : List V
  _buildNode : BuildNode
  kind : Option String
  intrinsicName : Option String
  isObjectVariant : Bool

/-- The value universe: the well-known intrinsic singletons this core
touches (`undefined`, the deletion sentinel `empty`, `null`), concrete
strings (`new StringValue(realm, str)`), and abstract values. -/
inductive Value where
  | undefinedV
  | emptyV
  | nullV
  | stringV (s : String)
  | abstractV (d : AVDataP Value)

/-- An `AbstractValue`'s data. -/
abbrev AVData := AVDataP Value

/-!  ## Symbolic Value (`AbstractValue`, `src/values/AbstractValue.js`)  -/

/-- The `AbstractValue` constructor.  `invariant(realm.isPartial)`,
`invariant(types.getType() !== ObjectValue || this instanceof
AbstractObjectValue)` and `invariant(types.getType() !== NullValue &&
types.getType() !== UndefinedValue)` are embedded as `Except Fault`;
`isObjectVariant` says which class of the two-variant hierarchy is being
constructed (`AbstractObjectValue` vs the base `AbstractValue`). -/
def mkAbstractValue (realm : Realm) (types : TypesDomain) (values : ValuesDomain)
    (args : List Value) (buildNode : BuildNode) (kind : Option String)
    (intrinsicName : Option String) (isObjectVariant : Bool) : Except Fault AVData :=
  if realm.speculative = true then
    if types.getType = TypeTag.objectT ∧ isObjectVariant = false then Except.error Fault.fault
    else if types.getType = TypeTag.nullT ∨ types.getType = TypeTag.undefinedT then
      Except.error Fault.fault
    else Except.ok ⟨realm, types, values, args, buildNode, kind, intrinsicName, isObjectVariant⟩
  else Except.error Fault.fault

/-- Modelled from the spec: the evaluation-context factory
(`realm.createAbstract`, whose source file `realm.js` is not part of this
repository) "builds a Symbolic Value (or its object-specialized variant)
given domain facts, dependencies, and a synthesis recipe": it invokes the
`AbstractValue` constructor, choosing the object-specialized variant
exactly when the type facts denote the object category. -/
def Realm.createAbstract (realm : Realm) (types : TypesDomain) (values : ValuesDomain)
    (args : List Value) (buildNode : BuildNode) (kind : Option String) :
    Except Fault AVData :=
  mkAbstractValue realm types values args buildNode kind none
    (decide (types.getType = TypeTag.objectT))

def AVData.getType (d : AVData) : TypeTag := d.types.getType

/-- `mightBeNumber()`. -/
def AVData.mightBeNumber (d : AVData) : Bool :=
  if d.getType = TypeTag.numberT then true
  else d.values.includesValueOfType TypeTag.numberT

/-- `mightNotBeNumber()`. -/
def AVData.mightNotBeNumber (d : AVData) : Bool :=
  if d.getType = TypeTag.numberT then false
  else d.values.includesValueNotOfType TypeTag.numberT

/-- `mightHaveBeenDeleted()`. -/
def AVData.mightHaveBeenDeleted (d : AVData) : Bool :=
  d.values.includesValueOfType TypeTag.emptyT

/-- `clone()`: re-runs the base `AbstractValue` constructor with this
value's realm, domains, dependencies and synthesis recipe but with no
`kind` and no `intrinsicName`; then `if (this.args) result.args =
this.args` re-assigns the same dependency array (a JS array is always
truthy), and `if (this.kind) result.kind = this.kind` copies the kind
exactly when it is a truthy (non-empty) string. -/
def AVData.clone (d : AVData) : Except Fault AVData :=
  match mkAbstractValue d.realm d.types d.values d.args d._buildNode none none false with
  | Except.error f => Except.error f
  | Except.ok r0 =>
    let r1 := { r0 with args := d.args }
    let r2 := match d.kind with
      | some s => if s = "" then r1 else { r1 with kind := some s }
      | none => r1
    Except.ok r2

/-- `promoteEmptyToUndefined()`.  The sentinel-promotion operation on the
value domain belongs to the external domain algebra, so it is passed in as
the oracle `promoteDom`.  The intrinsic singletons `this.$Realm.intrinsics
.empty` / `.undefined` are the constructors `Value.emptyV` /
`Value.undefinedV`. -/
def AVData.promoteEmptyToUndefined (promoteDom : ValuesDomain → ValuesDomain)
    (d : AVData) : Except Fault Value :=
  if d.values.includesValueOfType TypeTag.emptyT = false then
    Except.ok (Value.abstractV d)
  else
    match d.clone with
    | Except.error f => Except.error f
    | Except.ok r0 =>
      let r1 := { r0 with values := promoteDom r0.values }
      match Realm.createAbstract d.realm ⟨TypeTag.booleanT⟩ ValuesDomain.topVal
          [Value.abstractV d, Value.emptyV]
          (BuildNode.closure fun ns =>
            Node.binaryExpression "===" (ns.getD 0 Node.nullLiteral) (ns.getD 1 Node.nullLiteral))
          none with
      | Except.error f => Except.error f
      | Except.ok cond =>
        let r2 := { r1 with
          args := [Value.abstractV cond, Value.undefinedV, Value.abstractV d],
          _buildNode := BuildNode.closure fun ns =>
            Node.conditionalExpression (ns.getD 0 Node.nullLiteral) (ns.getD 1 Node.nullLiteral)
              (ns.getD 2 Node.nullLiteral) }
        Except.ok (Value.abstractV r2)

/-!  ## base-62 encoding (the `base62` npm dependency)

`base62.encode` maps `0` to `"0"` and a positive integer to its base-62
digit string (most significant digit first, no leading zeros) over the
charset `0-9 a-z A-Z`.  The recursion is made structural with a fuel
argument (`n` itself is enough fuel since `n / 62 < n`). -/

def base62Chars : List Char :=
  "0123456789abcdefghijklmnopqrstuvwxyzABCDEFGHIJKLMNOPQRSTUVWXYZ".toList

def base62digit (d : Nat) : Char := base62Chars.getD d '0'

/-- Little-endian base-62 digit list of `n` (empty for `0`). -/
def base62digitsAux : Nat → Nat → List Nat
  | 0, _ => []
  | f + 1, n => if n = 0 then [] else n % 62 :: base62digitsAux f (n / 62)

def base62digitsLE (n : Nat) : List Nat := base62digitsAux (n + 1) n

def base62encode (n : Nat) : String :=
  if n = 0 then "0"
  else String.mk (((base62digitsLE n).reverse).map base62digit)

/-!  ## Identifier/Reference Allocator (`PreludeGenerator`)  -/

structure PreludeGenerator where
  prelude : List Node
  derivedIds : List Node
  memoisedRefs : List (String × Node)
  uidCounter : Nat

/-- `new PreludeGenerator()`. -/
def PreludeGenerator.new : PreludeGenerator := ⟨[], [], [], 0⟩

/-- `Map.prototype.get` on the insertion-ordered `memoisedRefs` map. -/
def lookupRef (key : String) : List (String × Node) → Option Node
  | [] => none
  | (k, v) :: rest => if k = key then some v else lookupRef key rest

/-- `String.prototype.split(".")`, embedded structurally over the
character list (the accumulator holds the current segment reversed). -/
def splitDotAux : List Char → List Char → List String
  | [], acc => [String.mk acc.reverse]
  | c :: cs, acc =>
    if c = '.' then String.mk acc.reverse :: splitDotAux cs []
    else splitDotAux cs (c :: acc)

def splitOnDot (s : String) : List String := splitDotAux s.data []

/-- `convertStringToMember`: split on `.`, map to identifiers, and
left-fold (`reduce`) into nested member access. -/
def PreludeGenerator.convertStringToMember (str : String) : Node :=
  match (splitOnDot str).map Node.identifier with
  | [] => Node.identifier ""
  | x :: xs => xs.foldl Node.memberExpression x

/-- `generateUid`: `"_" + base62.encode(this.uidCounter++)`. -/
def PreludeGenerator.generateUid (pg : PreludeGenerator) : String × PreludeGenerator :=
  ("_" ++ base62encode pg.uidCounter, { pg with uidCounter := pg.uidCounter + 1 })

/-- `memoiseReference`: return the cached reference for `key` if present;
otherwise mint a fresh identifier, push a `var <id> = <member chain>;`
binding onto the prelude, record the mapping and return the identifier. -/
def PreludeGenerator.memoiseReference (key : String) (pg : PreludeGenerator) :
    Node × PreludeGenerator :=
  match lookupRef key pg.memoisedRefs with
  | some ref => (ref, pg)
  | none =>
    let p := pg.generateUid
    let ref := Node.identifier p.1
    let stmt := Node.variableDeclaration "var"
      [Node.variableDeclarator ref (PreludeGenerator.convertStringToMember key)]
    (ref, { p.2 with
        prelude := p.2.prelude ++ [stmt],
        memoisedRefs := p.2.memoisedRefs ++ [(key, ref)] })

/-- `copyPG(from, to)`: overwrite `to`'s four fields with copies of
`from`'s (`slice(0)` of the prelude, `new Set(...)`, `new Map(...)`, and
the counter value). -/
def copyPG (src tgt : PreludeGenerator) : PreludeGenerator :=
  { tgt with
    prelude := src.prelude,
    derivedIds := src.derivedIds,
    memoisedRefs := src.memoisedRefs,
    uidCounter := src.uidCounter }

/-- `save()`: a fresh `PreludeGenerator` overwritten with this one's state. -/
def PreludeGenerator.save (pg : PreludeGenerator) : PreludeGenerator :=
  copyPG pg PreludeGenerator.new

/-- `restore(saved)`: overwrite this state with the saved one's fields. -/
def PreludeGenerator.restore (pg saved : PreludeGenerator) : PreludeGenerator :=
  copyPG saved pg

/-- The mutations of allocator state the surrounding system performs:
minting a uid, requesting a memoized reference, adding a derived
identifier (as `derive` does), and extending the prelude. -/
inductive PGOp where
  | genUid
  | memoise (key : String)
  | addDerivedId (id : Node)
  | pushPrelude (stmt : Node)

/-- Run a sequence of allocator operations, collecting the identifier
strings returned by the explicit `generateUid` calls. -/
def runOps : List PGOp → PreludeGenerator → PreludeGenerator × List String
  | [], pg => (pg, [])
  | PGOp.genUid :: ops, pg =>
    let p := pg.generateUid
    let r := runOps ops p.2
    (r.1, p.1 :: r.2)
  | PGOp.memoise key :: ops, pg => runOps ops (pg.memoiseReference key).2
  | PGOp.addDerivedId id :: ops, pg =>
    runOps ops { pg with derivedIds := pg.derivedIds ++ [id] }
  | PGOp.pushPrelude stmt :: ops, pg =>
    runOps ops { pg with prelude := pg.prelude ++ [stmt] }

/-!  ## Effect Recorder (`Generator`)

A body entry's `buildNode` runs at replay time; `emitDefineProperty`'s
closure calls `memoiseReference` then, so the synthesis function threads
the allocator state explicitly. -/

structure BodyEntry where
  declaresDerivedId : Option Node
  args : List Value
  build : List Node → PreludeGenerator → Node × PreludeGenerator

/-- A body entry whose synthesis closure does not touch allocator state. -/
def pureEntry (declaresDerivedId : Option Node) (args : List Value)
    (f : List Node → Node) : BodyEntry :=
  ⟨declaresDerivedId, args, fun ns pg => (f ns, pg)⟩

/-- The `Generator`.  Its constructor asserts `invariant(realm.isPartial)`
and `invariant(realm.preludeGenerator)`; theorems about operations that
construct abstract values carry `realm.speculative = true` as the
corresponding hypothesis. -/
structure Generator where
  realm : Realm
  body : List BodyEntry
  preludeGenerator : PreludeGenerator

/-- `empty()`: `!this.body.length`. -/
def Generator.empty (g : Generator) : Bool := g.body.length == 0

/-- `emitGlobalDeclaration(key, value)`. -/
def Generator.emitGlobalDeclaration (key : String) (value : Value) (g : Generator) :
    Generator :=
  { g with body := g.body ++ [pureEntry none [value] fun ns =>
      Node.variableDeclaration "var"
        [Node.variableDeclarator (Node.identifier key) (ns.getD 0 Node.nullLiteral)]] }

/-- `emitGlobalAssignment(key, value)`. -/
def Generator.emitGlobalAssignment (key : String) (value : Value) (g : Generator) :
    Generator :=
  { g with body := g.body ++ [pureEntry none [value] fun ns =>
      Node.expressionStatement (Node.assignmentExpression "="
        (Node.identifier key) (ns.getD 0 Node.nullLiteral))] }

/-- `emitGlobalDelete(key)`. -/
def Generator.emitGlobalDelete (key : String) (g : Generator) : Generator :=
  { g with body := g.body ++ [pureEntry none [] fun _ =>
      Node.expressionStatement (Node.unaryExpression "delete" (Node.identifier key))] }

/-- `emitPropertyAssignment(object, key, value)`. -/
def Generator.emitPropertyAssignment (object : Value) (key : String) (value : Value)
    (g : Generator) : Generator :=
  { g with body := g.body ++ [pureEntry none [object, value] fun ns =>
      Node.expressionStatement (Node.assignmentExpression "="
        (Node.memberExpression (ns.getD 0 Node.nullLiteral) (Node.identifier key))
        (ns.getD 1 Node.nullLiteral))] }

/-- A property descriptor as `emitDefineProperty` reads it.  The three
flags collapse JS truthiness (`undefined` and `false` alike are falsy);
`value`/`get`/`set` are `Value`s or absent (a present `Value` object is
always truthy). -/
structure Descriptor where
  enumerable : Bool
  configurable : Bool
  writable : Bool
  value : Option Value
  get : Option Value
  set : Option Value

/-- `emitDefineProperty(object, key, desc)`: a fully-enumerable/
configurable/writable data descriptor degrades to `emitPropertyAssignment`;
otherwise one entry is pushed whose dependencies backfill missing
`value`/`get`/`set` with the `undefined` intrinsic and whose synthesis
calls the `Object.defineProperty` intrinsic through the allocator's
memoized reference. -/
def Generator.emitDefineProperty (object : Value) (key : String) (desc : Descriptor)
    (g : Generator) : Generator :=
  if desc.enumerable = true ∧ desc.configurable = true ∧ desc.writable = true ∧
      desc.value.isSome = true then
    g.emitPropertyAssignment object key (desc.value.getD Value.undefinedV)
  else
    { g with body := g.body ++ [⟨none,
        [object, desc.value.getD Value.undefinedV, desc.get.getD Value.undefinedV,
          desc.set.getD Value.undefinedV],
        fun ns pg =>
          let objectNode := ns.getD 0 Node.nullLiteral
          let valueNode := ns.getD 1 Node.nullLiteral
          let getNode := ns.getD 2 Node.nullLiteral
          let setNode := ns.getD 3 Node.nullLiteral
          let descProps :=
            [Node.objectProperty (Node.identifier "enumerable")
               (Node.booleanLiteral desc.enumerable),
             Node.objectProperty (Node.identifier "configurable")
               (Node.booleanLiteral desc.configurable)] ++
            (if desc.get.isNone = true ∧ desc.set.isNone = true then
              [Node.objectProperty (Node.identifier "writable")
                 (Node.booleanLiteral desc.writable),
               Node.objectProperty (Node.identifier "value") valueNode]
            else
              [Node.objectProperty (Node.identifier "get") getNode,
               Node.objectProperty (Node.identifier "set") setNode])
          let p := pg.memoiseReference "Object.defineProperty"
          (Node.expressionStatement (Node.callExpression p.1
            [objectNode, Node.stringLiteral key, Node.objectExpression descProps]), p.2)⟩] }

/-- `emitPropertyDelete(object, key)`. -/
def Generator.emitPropertyDelete (object : Value) (key : String) (g : Generator) :
    Generator :=
  { g with body := g.body ++ [pureEntry none [object] fun ns =>
      Node.expressionStatement (Node.unaryExpression "delete"
        (Node.memberExpression (ns.getD 0 Node.nullLiteral) (Node.identifier key)))] }

/-- `emitConsoleLog(str)`: the argument is wrapped as a concrete
`StringValue` of the realm. -/
def Generator.emitConsoleLog (str : String) (g : Generator) : Generator :=
  { g with body := g.body ++ [pureEntry none [Value.stringV str] fun ns =>
      Node.expressionStatement (Node.callExpression
        (Node.memberExpression (Node.identifier "console") (Node.identifier "log"))
        [ns.getD 0 Node.nullLiteral])] }

/-- The `throw new Error("Prepack model invariant violation")` block that
`emitInvariant` schedules. -/
def invariantThrowBlock : Node :=
  Node.blockStatement [Node.throwStatement (Node.newExpression (Node.identifier "Error")
    [Node.stringLiteral "Prepack model invariant violation"])]

/-- `emitInvariant(args, violationConditionFn)`: schedule
`if (violationConditionFn(nodes)) throw new Error(...)`. -/
def Generator.emitInvariant (args : List Value) (violationConditionFn : List Node → Node)
    (g : Generator) : Generator :=
  { g with body := g.body ++ [pureEntry none args fun ns =>
      Node.ifStatement (violationConditionFn ns) invariantThrowBlock] }

/-- The `typeofString` dispatch inside `derive`, including the
`invariant(false)` arms for the null/undefined singleton categories. -/
def deriveTypeofString : TypeTag → Except Fault (Option String)
  | TypeTag.functionT => Except.ok (some "function")
  | TypeTag.undefinedT => Except.error Fault.fault
  | TypeTag.nullT => Except.error Fault.fault
  | TypeTag.stringT => Except.ok (some "string")
  | TypeTag.booleanT => Except.ok (some "boolean")
  | TypeTag.numberT => Except.ok (some "number")
  | TypeTag.symbolT => Except.ok (some "symbol")
  | TypeTag.objectT => Except.ok (some "object")
  | _ => Except.ok none

/-- The violation condition `derive` schedules: `typeof <node> !== <tag>`,
with `|| <node> === null` appended for the object category. -/
def deriveInvariantCondition (typeofString : String) (ns : List Node) : Node :=
  let condition := Node.binaryExpression "!=="
    (Node.unaryExpression "typeof" (ns.getD 0 Node.nullLiteral))
    (Node.stringLiteral typeofString)
  if typeofString = "object" then
    Node.logicalExpression "||" condition
      (Node.binaryExpression "===" (ns.getD 0 Node.nullLiteral) Node.nullLiteral)
  else condition

/-- `invariant(buildNode_ instanceof Function || args.length === 0)`. -/
def deriveBuildNodeOk : BuildNode → List Value → Bool
  | BuildNode.closure _, _ => true
  | BuildNode.fixed _, args => args.isEmpty

/-- `derive(types, values, args, buildNode_, kind)`: mint a fresh
identifier, mark it derived, push a body entry declaring it, construct the
symbolic value through the realm factory with the identifier as its fixed
node and stable name, and append the trailing runtime type-tag invariant
check when the resolved type has a `typeof` tag. -/
def Generator.derive (types : TypesDomain) (values : ValuesDomain) (args : List Value)
    (buildNode0 : BuildNode) (kind : Option String) (g : Generator) :
    Except Fault (AVData × Generator) :=
  if deriveBuildNodeOk buildNode0 args = true then
    let p := g.preludeGenerator.generateUid
    let id := Node.identifier p.1
    let pg2 := { p.2 with derivedIds := p.2.derivedIds ++ [id] }
    let entry := pureEntry (some id) args fun ns =>
      Node.variableDeclaration "var"
        [Node.variableDeclarator id (BuildNode.run buildNode0 ns)]
    let g1 : Generator := { g with preludeGenerator := pg2, body := g.body ++ [entry] }
    match Realm.createAbstract g.realm types values args (BuildNode.fixed id) kind with
    | Except.error f => Except.error f
    | Except.ok res0 =>
      let res := { res0 with intrinsicName := some p.1 }
      match deriveTypeofString types.getType with
      | Except.error f => Except.error f
      | Except.ok none => Except.ok (res, g1)
      | Except.ok (some ts) =>
        Except.ok (res, g1.emitInvariant [Value.abstractV res] (deriveInvariantCondition ts))
  else Except.error Fault.fault

/-!  ## Theorems.  First, facts about the base-62 encoding.  -/

/-- Value of a little-endian base-62 digit list. -/
def base62val : List Nat → Nat
  | [] => 0
  | d :: ds => d + 62 * base62val ds

theorem base62digitsAux_val : ∀ fuel n, n < fuel →
    base62val (base62digitsAux fuel n) = n := by
  intro fuel
  induction fuel with
  | zero => intro n h; omega
  | succ f ih =>
    intro n h
    by_cases hn : n = 0
    · subst hn; simp [base62digitsAux, base62val]
    · have hd : n / 62 < n := Nat.div_lt_self (Nat.pos_of_ne_zero hn) (by norm_num)
      simp only [base62digitsAux, hn, if_false, base62val]
      rw [ih (n / 62) (by omega)]
      omega

theorem base62digitsLE_val (n : Nat) : base62val (base62digitsLE n) = n :=
  base62digitsAux_val (n + 1) n (by omega)

theorem base62digitsAux_lt : ∀ fuel n, ∀ d ∈ base62digitsAux fuel n, d < 62 := by
  intro fuel
  induction fuel with
  | zero => intro n d h; simp [base62digitsAux] at h
  | succ f ih =>
    intro n d h
    by_cases hn : n = 0
    · subst hn; simp [base62digitsAux] at h
    · simp only [base62digitsAux, hn, if_false, List.mem_cons] at h
      rcases h with h | h
      · subst h; exact Nat.mod_lt _ (by norm_num)
      · exact ih _ _ h

theorem base62digit_inj : ∀ d1, d1 < 62 → ∀ d2, d2 < 62 →
    base62digit d1 = base62digit d2 → d1 = d2 := by decide

theorem map_base62digit_inj : ∀ l1 l2 : List Nat, (∀ d ∈ l1, d < 62) →
    (∀ d ∈ l2, d < 62) → l1.map base62digit = l2.map base62digit → l1 = l2 := by
  intro l1
  induction l1 with
  | nil =>
    intro l2 _ _ h
    cases l2 with
    | nil => rfl
    | cons b m => simp at h
  | cons a l ih =>
    intro l2 h1 h2 h
    cases l2 with
    | nil => simp at h
    | cons b m =>
      simp only [List.map_cons, List.cons.injEq] at h
      have ha : a < 62 := h1 a (by simp)
      have hb : b < 62 := h2 b (by simp)
      have hab : a = b := base62digit_inj a ha b hb h.1
      subst hab
      rw [ih m (fun d hd => h1 d (by simp [hd])) (fun d hd => h2 d (by simp [hd])) h.2]

theorem base62digitsLE_inj : ∀ m n : Nat, base62digitsLE m = base62digitsLE n → m = n := by
  intro m n h
  rw [← base62digitsLE_val m, ← base62digitsLE_val n, h]

theorem base62encode_inj : ∀ m n : Nat, base62encode m = base62encode n → m = n := by
  intro m n h
  have hb1 := base62digitsAux_lt (m + 1) m
  have hb2 := base62digitsAux_lt (n + 1) n
  by_cases hm : m = 0 <;> by_cases hn : n = 0
  · omega
  · exfalso
    simp only [base62encode, hm, hn, if_true, if_false] at h
    have hd := congrArg String.data h
    simp only [String.mk] at hd
    have h0 : (List.map base62digit (base62digitsLE n).reverse) = List.map base62digit [0] := by
      simpa using hd.symm
    have hrev : (base62digitsLE n).reverse = [0] := by
      refine map_base62digit_inj _ _ ?_ ?_ h0
      · intro d hdm
        exact hb2 d (by simpa [base62digitsLE] using List.mem_reverse.mp hdm)
      · intro d hdm; simp at hdm; omega
    have : base62digitsLE n = [0] := by
      have := congrArg List.reverse hrev
      simpa using this
    have hv := base62digitsLE_val n
    rw [this] at hv
    simp [base62val] at hv
    omega
  · exfalso
    simp only [base62encode, hm, hn, if_true, if_false] at h
    have hd := congrArg String.data h
    simp only [String.mk] at hd
    have h0 : (List.map base62digit (base62digitsLE m).reverse) = List.map base62digit [0] := by
      simpa using hd
    have hrev : (base62digitsLE m).reverse = [0] := by
      refine map_base62digit_inj _ _ ?_ ?_ h0
      · intro d hdm
        exact hb1 d (by simpa [base62digitsLE] using List.mem_reverse.mp hdm)
      · intro d hdm; simp at hdm; omega
    have : base62digitsLE m = [0] := by
      have := congrArg List.reverse hrev
      simpa using this
    have hv := base62digitsLE_val m
    rw [this] at hv
    simp [base62val] at hv
    omega
  · simp only [base62encode, hm, hn, if_false] at h
    have hd := congrArg String.data h
    simp only [String.mk] at hd
    have hrev : (base62digitsLE m).reverse = (base62digitsLE n).reverse := by
      refine map_base62digit_inj _ _ ?_ ?_ hd
      · intro d hdm
        exact hb1 d (by simpa [base62digitsLE] using List.mem_reverse.mp hdm)
      · intro d hdm
        exact hb2 d (by simpa [base62digitsLE] using List.mem_reverse.mp hdm)
    have hdig : base62digitsLE m = base62digitsLE n := by
      have := congrArg List.reverse hrev
      simpa using this
    exact base62digitsLE_inj m n hdig

/-- Identifier strings minted by `generateUid` are injective in the
counter value. -/
theorem uidString_inj : ∀ m n : Nat,
    "_" ++ base62encode m = "_" ++ base62encode n → m = n := by
  intro m n h
  have hd := congrArg String.data h
  rw [String.data_append, String.data_append] at hd
  have : (base62encode m).data = (base62encode n).data :=
    List.append_cancel_left hd
  exact base62encode_inj m n (String.ext this)

/-!  ## Allocator lemmas  -/

theorem lookupRef_append (key : String) (l1 l2 : List (String × Node)) :
    lookupRef key (l1 ++ l2) =
      match lookupRef key l1 with
      | some r => some r
      | none => lookupRef key l2 := by
  induction l1 with
  | nil => simp [lookupRef]
  | cons p l ih =>
    cases p with
    | mk k v =>
      by_cases hk : k = key <;> simp [lookupRef, hk, ih]

theorem memoiseReference_counter_le (key : String) (pg : PreludeGenerator) :
    pg.uidCounter ≤ (pg.memoiseReference key).2.uidCounter := by
  unfold PreludeGenerator.memoiseReference
  cases h : lookupRef key pg.memoisedRefs <;>
    simp [h, PreludeGenerator.generateUid]

theorem runOps_counter_le (ops : List PGOp) : ∀ pg : PreludeGenerator,
    pg.uidCounter ≤ (runOps ops pg).1.uidCounter := by
  induction ops with
  | nil => intro pg; simp [runOps]
  | cons op ops ih =>
    intro pg
    cases op with
    | genUid =>
      have h := ih (pg.generateUid).2
      have h2 : pg.uidCounter ≤ (pg.generateUid).2.uidCounter := by
        simp [PreludeGenerator.generateUid]
      simp only [runOps]
      omega
    | memoise key =>
      have h1 := memoiseReference_counter_le key pg
      have h2 := ih (pg.memoiseReference key).2
      simp only [runOps]
      omega
    | addDerivedId id =>
      simp only [runOps]
      exact ih { pg with derivedIds := pg.derivedIds ++ [id] }
    | pushPrelude stmt =>
      simp only [runOps]
      exact ih { pg with prelude := pg.prelude ++ [stmt] }

theorem runOps_uids_shape (ops : List PGOp) : ∀ pg : PreludeGenerator,
    ∀ s ∈ (runOps ops pg).2, ∃ c, s = "_" ++ base62encode c ∧ pg.uidCounter ≤ c := by
  induction ops with
  | nil => intro pg s h; simp [runOps] at h
  | cons op ops ih =>
    intro pg s h
    cases op with
    | genUid =>
      simp only [runOps, List.mem_cons] at h
      rcases h with h | h
      · exact ⟨pg.uidCounter, by simpa [PreludeGenerator.generateUid] using h, le_refl _⟩
      · obtain ⟨c, hc, hle⟩ := ih (pg.generateUid).2 s h
        refine ⟨c, hc, ?_⟩
        simp [PreludeGenerator.generateUid] at hle
        omega
    | memoise key =>
      simp only [runOps] at h
      obtain ⟨c, hc, hle⟩ := ih _ s h
      exact ⟨c, hc, le_trans (memoiseReference_counter_le key pg) hle⟩
    | addDerivedId id =>
      simp only [runOps] at h
      obtain ⟨c, hc, hle⟩ := ih _ s h
      exact ⟨c, hc, hle⟩
    | pushPrelude stmt =>
      simp only [runOps] at h
      obtain ⟨c, hc, hle⟩ := ih _ s h
      exact ⟨c, hc, hle⟩

theorem runOps_uids_nodup (ops : List PGOp) : ∀ pg : PreludeGenerator,
    (runOps ops pg).2.Nodup := by
  induction ops with
  | nil => intro pg; simp [runOps]
  | cons op ops ih =>
    intro pg
    cases op with
    | genUid =>
      simp only [runOps]
      refine List.nodup_cons.mpr ⟨?_, ih _⟩
      intro hmem
      obtain ⟨c, hc, hle⟩ := runOps_uids_shape ops (pg.generateUid).2 _ hmem
      simp only [PreludeGenerator.generateUid] at hc hle
      have := uidString_inj pg.uidCounter c hc
      omega
    | memoise key => simpa only [runOps] using ih _
    | addDerivedId id => simpa only [runOps] using ih _
    | pushPrelude stmt => simpa only [runOps] using ih _

theorem uidString_head (c : Nat) : ("_" ++ base62encode c).data.head? = some '_' := by
  rw [String.data_append]
  rfl

/-- C5: `memoiseReference` appends at most one prelude binding per
dotted-path key over the allocator lifetime and returns the stored
reference node on every repeated request; the first request binds a fresh
identifier to `convertStringToMember key`, which left-folds the dot
segments into nested member access (a single segment collapsing to a bare
name reference). -/
theorem claim5_memoiseReference :
    (∀ (pg : PreludeGenerator) (key : String) (r : Node),
      lookupRef key pg.memoisedRefs = some r →
      pg.memoiseReference key = (r, pg)) ∧
    (∀ (pg : PreludeGenerator) (key : String),
      lookupRef key pg.memoisedRefs = none →
      ∃ ref, pg.memoiseReference key =
        (ref, { pg with
          uidCounter := pg.uidCounter + 1,
          prelude := pg.prelude ++ [Node.variableDeclaration "var"
            [Node.variableDeclarator ref (PreludeGenerator.convertStringToMember key)]],
          memoisedRefs := pg.memoisedRefs ++ [(key, ref)] }) ∧
        lookupRef key (pg.memoisedRefs ++ [(key, ref)]) = some ref) ∧
    ((PreludeGenerator.memoiseReference "a.b.c"
        (PreludeGenerator.memoiseReference "a.b.c"
          (PreludeGenerator.memoiseReference "a.b.c" PreludeGenerator.new).2).2).2.prelude.length
        = 1 ∧
      (PreludeGenerator.memoiseReference "a.b.c" PreludeGenerator.new).1 =
        (PreludeGenerator.memoiseReference "a.b.c"
          (PreludeGenerator.memoiseReference "a.b.c" PreludeGenerator.new).2).1 ∧
      (PreludeGenerator.memoiseReference "a.b.c" PreludeGenerator.new).1 =
        (PreludeGenerator.memoiseReference "a.b.c"
          (PreludeGenerator.memoiseReference "a.b.c"
            (PreludeGenerator.memoiseReference "a.b.c" PreludeGenerator.new).2).2).1) ∧
    PreludeGenerator.convertStringToMember "a.b.c" =
      Node.memberExpression
        (Node.memberExpression (Node.identifier "a") (Node.identifier "b"))
        (Node.identifier "c") ∧
    PreludeGenerator.convertStringToMember "a" = Node.identifier "a" := by
  refine ⟨?_, ?_, ⟨?_, ?_, ?_⟩, ?_, ?_⟩
  · intro pg key r h
    unfold PreludeGenerator.memoiseReference
    rw [h]
  · intro pg key h
    refine ⟨Node.identifier ("_" ++ base62encode pg.uidCounter), ?_, ?_⟩
    · unfold PreludeGenerator.memoiseReference
      rw [h]
      simp [PreludeGenerator.generateUid]
    · rw [lookupRef_append, h]
      simp [lookupRef]
  · rfl
  · rfl
  · rfl
  · rfl
  · rfl

/-- C5 witness: idempotence and the first-call shape evaluated on
concrete allocator states, and the concrete fold of `"a.b.c"`. -/
theorem claim5_witness :
    PreludeGenerator.memoiseReference "k"
      (⟨[], [], [("k", Node.identifier "r")], 5⟩ : PreludeGenerator) =
      (Node.identifier "r", ⟨[], [], [("k", Node.identifier "r")], 5⟩) ∧
    (∃ ref, PreludeGenerator.memoiseReference "a.b.c" PreludeGenerator.new =
        (ref, { PreludeGenerator.new with
          uidCounter := PreludeGenerator.new.uidCounter + 1,
          prelude := PreludeGenerator.new.prelude ++ [Node.variableDeclaration "var"
            [Node.variableDeclarator ref (PreludeGenerator.convertStringToMember "a.b.c")]],
          memoisedRefs := PreludeGenerator.new.memoisedRefs ++ [("a.b.c", ref)] }) ∧
      lookupRef "a.b.c" (PreludeGenerator.new.memoisedRefs ++ [("a.b.c", ref)]) = some ref) :=
  ⟨claim5_memoiseReference.1 _ "k" (Node.identifier "r") rfl,
   claim5_memoiseReference.2.1 PreludeGenerator.new "a.b.c" rfl⟩

/-- C6: snapshot/restore round-trip: a snapshot carries the same four
components as the state it was taken from, and restoring it after any
sequence of allocator mutations yields back exactly the snapshotted
state.  (In this pure embedding the snapshot's containers are separate
values, so independence from later mutation of the original is inherent;
`copyPG` copying all four fields is what the equalities certify.) -/
theorem claim6_snapshot_restore (S : PreludeGenerator) (ops : List PGOp) :
    S.save.prelude = S.prelude ∧
    S.save.derivedIds = S.derivedIds ∧
    S.save.memoisedRefs = S.memoisedRefs ∧
    S.save.uidCounter = S.uidCounter ∧
    PreludeGenerator.restore (runOps ops S).1 S.save = S := by
  refine ⟨rfl, rfl, rfl, rfl, rfl⟩

/-- C7 counterexample: two `generateUid` calls within one allocator
lifetime return the identical string `"_0"` when a `restore` to an
earlier snapshot happens between them, refuting no-repetition across
sequences that include `restoreFrom`. -/
theorem claim7_counterexample :
    ((PreludeGenerator.new.generateUid).1 =
      ((PreludeGenerator.restore (PreludeGenerator.new.generateUid).2
          PreludeGenerator.new.save).generateUid).1) ∧
    (PreludeGenerator.new.generateUid).1 = "_0" := by
  refine ⟨rfl, by decide⟩

/-- C7 (amended): `generateUid` returns `"_"` followed by the base-62
encoding of the current counter and increments the counter; across every
restore-free sequence of allocator operations the collected identifiers
are pairwise distinct; and every returned identifier starts with the
non-digit `'_'`. -/
theorem claim7_generateUid_amended (pg : PreludeGenerator) (ops : List PGOp) :
    pg.generateUid = ("_" ++ base62encode pg.uidCounter,
      { pg with uidCounter := pg.uidCounter + 1 }) ∧
    (runOps ops pg).2.Nodup ∧
    (∀ s ∈ (runOps ops pg).2,
      ∃ c, s = "_" ++ base62encode c ∧ s.data.head? = some '_' ∧ '_'.isDigit = false) := by
  refine ⟨rfl, runOps_uids_nodup ops pg, ?_⟩
  intro s hs
  obtain ⟨c, hc, -⟩ := runOps_uids_shape ops pg s hs
  exact ⟨c, hc, by rw [hc]; exact uidString_head c, by decide⟩

/-- C7 witness: the amended statement evaluated on a fresh allocator and
two minting operations. -/
theorem claim7_witness :
    (runOps [PGOp.genUid, PGOp.genUid] PreludeGenerator.new).2.Nodup ∧
    (∃ c, "_0" = "_" ++ base62encode c ∧ ("_0" : String).data.head? = some '_' ∧
      '_'.isDigit = false) :=
  ⟨(claim7_generateUid_amended PreludeGenerator.new [PGOp.genUid, PGOp.genUid]).2.1,
   (claim7_generateUid_amended PreludeGenerator.new [PGOp.genUid, PGOp.genUid]).2.2
     "_0" (by decide)⟩

/-!  ## Symbolic Value claims  -/

/-- C2: constructing a Symbolic Value faults when the context is not
speculative, when object-category facts meet the non-object-specialized
variant, or when the facts denote the null or undefined singleton
category; otherwise construction succeeds, for every domain, dependency
list and synthesis recipe. -/
theorem claim2_construct (realm : Realm) (types : TypesDomain) (values : ValuesDomain)
    (args : List Value) (bn : BuildNode) (kind iname : Option String) (objVar : Bool) :
    (realm.speculative = false →
      mkAbstractValue realm types values args bn kind iname objVar =
        Except.error Fault.fault) ∧
    (types.getType = TypeTag.objectT → objVar = false →
      mkAbstractValue realm types values args bn kind iname objVar =
        Except.error Fault.fault) ∧
    ((types.getType = TypeTag.nullT ∨ types.getType = TypeTag.undefinedT) →
      mkAbstractValue realm types values args bn kind iname objVar =
        Except.error Fault.fault) ∧
    (realm.speculative = true →
      (types.getType = TypeTag.objectT → objVar = true) →
      types.getType ≠ TypeTag.nullT → types.getType ≠ TypeTag.undefinedT →
      mkAbstractValue realm types values args bn kind iname objVar =
        Except.ok ⟨realm, types, values, args, bn, kind, iname, objVar⟩) := by
  refine ⟨?_, ?_, ?_, ?_⟩
  · intro h
    simp [mkAbstractValue, h]
  · intro h1 h2
    cases hs : realm.speculative <;> simp [mkAbstractValue, hs, h1, h2]
  · intro h
    cases hs : realm.speculative <;> simp [mkAbstractValue, hs]
    intro hov
    rcases h with h | h <;> rw [h] at hov ⊢ <;> simp_all
  · intro hs hov hn hu
    simp only [mkAbstractValue, hs, if_true]
    rw [if_neg, if_neg]
    · simp [hn, hu]
    · intro hc
      exact absurd (hov hc.1) (by simp [hc.2])

/-- C2 witness: the null-category fault and a successful construction,
evaluated at concrete inputs. -/
theorem claim2_witness :
    mkAbstractValue ⟨true⟩ ⟨TypeTag.nullT⟩ ValuesDomain.topVal [] (BuildNode.fixed
      Node.nullLiteral) none none false = Except.error Fault.fault ∧
    mkAbstractValue ⟨true⟩ ⟨TypeTag.numberT⟩ ValuesDomain.topVal [] (BuildNode.fixed
      Node.nullLiteral) none none false = Except.ok ⟨⟨true⟩, ⟨TypeTag.numberT⟩,
      ValuesDomain.topVal, [], BuildNode.fixed Node.nullLiteral, none, none, false⟩ :=
  ⟨(claim2_construct ⟨true⟩ ⟨TypeTag.nullT⟩ ValuesDomain.topVal [] (BuildNode.fixed
      Node.nullLiteral) none none false).2.2.1 (Or.inl rfl),
   (claim2_construct ⟨true⟩ ⟨TypeTag.numberT⟩ ValuesDomain.topVal [] (BuildNode.fixed
      Node.nullLiteral) none none false).2.2.2 rfl (by intro h; cases h) (by intro h; cases h)
      (by intro h; cases h)⟩

/-- C3: when the resolved type is exactly Number, `mightBeNumber` is true
and `mightNotBeNumber` is false regardless of the value domain; otherwise
each predicate is the corresponding value-domain membership query. -/
theorem claim3_mightBeNumber (d : AVData) :
    (d.getType = TypeTag.numberT →
      d.mightBeNumber = true ∧ d.mightNotBeNumber = false) ∧
    (d.getType ≠ TypeTag.numberT →
      d.mightBeNumber = d.values.includesValueOfType TypeTag.numberT ∧
      d.mightNotBeNumber = d.values.includesValueNotOfType TypeTag.numberT) := by
  refine ⟨fun h => ?_, fun h => ?_⟩
  · simp [AVData.mightBeNumber, AVData.mightNotBeNumber, h]
  · simp [AVData.mightBeNumber, AVData.mightNotBeNumber, h]

/-- C3 witness: a Number-typed symbolic value over a domain whose
membership queries both answer positively, and a Boolean-typed one. -/
theorem claim3_witness :
    (AVData.mightBeNumber ⟨⟨true⟩, ⟨TypeTag.numberT⟩, ValuesDomain.topVal, [],
        BuildNode.fixed Node.nullLiteral, none, none, false⟩ = true ∧
      AVData.mightNotBeNumber ⟨⟨true⟩, ⟨TypeTag.numberT⟩, ValuesDomain.topVal, [],
        BuildNode.fixed Node.nullLiteral, none, none, false⟩ = false) ∧
    (AVData.mightBeNumber ⟨⟨true⟩, ⟨TypeTag.booleanT⟩, ValuesDomain.topVal, [],
        BuildNode.fixed Node.nullLiteral, none, none, false⟩ =
      ValuesDomain.topVal.includesValueOfType TypeTag.numberT ∧
      AVData.mightNotBeNumber ⟨⟨true⟩, ⟨TypeTag.booleanT⟩, ValuesDomain.topVal, [],
        BuildNode.fixed Node.nullLiteral, none, none, false⟩ =
      ValuesDomain.topVal.includesValueNotOfType TypeTag.numberT) :=
  ⟨(claim3_mightBeNumber _).1 rfl, (claim3_mightBeNumber _).2 (by intro h; cases h)⟩

/-- A concrete object-specialized symbolic value carrying a stable name
(an object-typed derived value over the top value domain). -/
def objNamedValue : AVData :=
  ⟨⟨true⟩, ⟨TypeTag.objectT⟩, ValuesDomain.topVal, [],
    BuildNode.fixed (Node.identifier "_0"), none, some "_0", true⟩

/-- C10 counterexample: `objNamedValue` is a constructible Symbolic Value
(the object-specialized variant accepts object-category facts) with a
set `intrinsicName`, yet `clone` re-runs the base constructor, whose
object-category invariant faults, so no clone is produced at all —
refuting the claim's universal quantification over every Symbolic
Value. -/
theorem claim10_counterexample :
    mkAbstractValue ⟨true⟩ ⟨TypeTag.objectT⟩ ValuesDomain.topVal []
      (BuildNode.fixed (Node.identifier "_0")) none (some "_0") true =
      Except.ok objNamedValue ∧
    objNamedValue.intrinsicName = some "_0" ∧
    AVData.clone objNamedValue = Except.error Fault.fault ∧
    (∀ r : AVData, AVData.clone objNamedValue ≠ Except.ok r) := by
  refine ⟨rfl, rfl, rfl, fun r h => ?_⟩
  rw [show AVData.clone objNamedValue = Except.error Fault.fault from rfl] at h
  exact Except.noConfusion h

/-- C10 (implicit, amended): for every Symbolic Value whose type facts do
not denote the object category, `clone` drops the original's stable name
— the clone's `intrinsicName` is unset even when the original's is set —
and the clone's dependency list is the original's own `args`, passed
through unchanged (no copy is taken); for object-category
(object-specialized) values, `clone` re-runs the base constructor, whose
invariant faults, so no clone is produced at all. -/
theorem claim10_clone (d : AVData) (n : String) :
    (d.realm.speculative = true → d.types.getType ≠ TypeTag.objectT →
      d.types.getType ≠ TypeTag.nullT → d.types.getType ≠ TypeTag.undefinedT →
      d.intrinsicName = some n →
      ∃ r, d.clone = Except.ok r ∧ r.intrinsicName = none ∧ r.args = d.args) ∧
    (d.types.getType = TypeTag.objectT →
      d.clone = Except.error Fault.fault) := by
  constructor
  · intro hp h1 h2 h3 _hi
    unfold AVData.clone
    simp only [mkAbstractValue, hp, if_true]
    rw [if_neg (by simp [h1]), if_neg (by simp [h2, h3])]
    cases hk : d.kind with
    | none => exact ⟨_, rfl, rfl, rfl⟩
    | some s =>
      by_cases hs : s = "" <;> simp only [hs, if_true, if_false] <;>
        exact ⟨_, rfl, rfl, rfl⟩
  · intro ho
    unfold AVData.clone
    have hmk : mkAbstractValue d.realm d.types d.values d.args d._buildNode none none
        false = Except.error Fault.fault := by
      unfold mkAbstractValue
      cases hs : d.realm.speculative
      · rw [if_neg (by simp)]
      · rw [if_pos rfl, if_pos ⟨ho, rfl⟩]
    rw [hmk]

/-- C10 witness: a clone of a concrete non-object derived value with a
set `intrinsicName` evaluates to a name-less clone with the same args,
and the clone of a concrete object-specialized value faults. -/
theorem claim10_witness :
    (∃ r, AVData.clone ⟨⟨true⟩, ⟨TypeTag.numberT⟩, ValuesDomain.topVal,
        [Value.undefinedV], BuildNode.fixed (Node.identifier "_0"), none, some "_0",
        false⟩ = Except.ok r ∧
      r.intrinsicName = none ∧
      r.args = (⟨⟨true⟩, ⟨TypeTag.numberT⟩, ValuesDomain.topVal, [Value.undefinedV],
        BuildNode.fixed (Node.identifier "_0"), none, some "_0", false⟩ : AVData).args) ∧
    AVData.clone objNamedValue = Except.error Fault.fault :=
  ⟨(claim10_clone ⟨⟨true⟩, ⟨TypeTag.numberT⟩, ValuesDomain.topVal, [Value.undefinedV],
        BuildNode.fixed (Node.identifier "_0"), none, some "_0", false⟩ "_0").1 rfl
      (by intro h; cases h) (by intro h; cases h) (by intro h; cases h) rfl,
   (claim10_clone objNamedValue "_0").2 rfl⟩

/-- A value's dependency list cannot have the value itself as its third
entry (structural acyclicity of the value universe). -/
theorem args_ne_selfcycle (d : AVData) (x y : Value) :
    d.args ≠ [x, y, Value.abstractV d] := by
  intro h
  have h1 : sizeOf d.args < sizeOf d := by
    cases d
    simp
    omega
  rw [h] at h1
  simp at h1
  omega

/-- A concrete object-specialized symbolic value over the top value
domain (which includes the deletion sentinel). -/
def objTopValue : AVData :=
  ⟨⟨true⟩, ⟨TypeTag.objectT⟩, ValuesDomain.topVal, [],
    BuildNode.fixed Node.nullLiteral, none, none, true⟩

/-- C4 counterexample: `objTopValue` is a constructible Symbolic Value
whose value domain includes the deletion sentinel, yet
`promoteEmptyToUndefined` faults in `clone`'s base-constructor invariant
instead of returning the claimed clone — refuting the claim's universal
quantification over every Symbolic Value. -/
theorem claim4_counterexample :
    mkAbstractValue ⟨true⟩ ⟨TypeTag.objectT⟩ ValuesDomain.topVal []
      (BuildNode.fixed Node.nullLiteral) none none true = Except.ok objTopValue ∧
    objTopValue.values.includesValueOfType TypeTag.emptyT = true ∧
    AVData.promoteEmptyToUndefined (fun v => v) objTopValue =
      Except.error Fault.fault ∧
    (∀ res : AVData, AVData.promoteEmptyToUndefined (fun v => v) objTopValue ≠
      Except.ok (Value.abstractV res)) := by
  refine ⟨rfl, rfl, rfl, fun res h => ?_⟩
  rw [show AVData.promoteEmptyToUndefined (fun v => v) objTopValue =
      Except.error Fault.fault from rfl] at h
  exact Except.noConfusion h

/-- C4 (amended): if the value domain cannot include the deletion
sentinel, `promoteEmptyToUndefined` returns this very value; otherwise,
for values whose type facts do not denote the object category, it
returns a distinct clone whose domain is the sentinel-promoted one,
whose dependencies are `[guard, undefined, this]` for a fresh boolean
guard with dependencies `[this, empty]` and a strict-equality recipe,
and whose recipe builds the three-way conditional; for object-category
(object-specialized) values with a sentinel-including domain it faults
in `clone`'s base-constructor invariant instead. -/
theorem claim4_promoteEmpty (promoteDom : ValuesDomain → ValuesDomain) (d : AVData) :
    (d.values.includesValueOfType TypeTag.emptyT = false →
      d.promoteEmptyToUndefined promoteDom = Except.ok (Value.abstractV d)) ∧
    (d.realm.speculative = true → d.types.getType ≠ TypeTag.objectT →
      d.types.getType ≠ TypeTag.nullT → d.types.getType ≠ TypeTag.undefinedT →
      d.values.includesValueOfType TypeTag.emptyT = true →
      ∃ guard res,
        d.promoteEmptyToUndefined promoteDom = Except.ok (Value.abstractV res) ∧
        res ≠ d ∧
        res.types = d.types ∧
        res.values = promoteDom d.values ∧
        res.args = [Value.abstractV guard, Value.undefinedV, Value.abstractV d] ∧
        res.intrinsicName = none ∧
        (∀ a b c, BuildNode.run res._buildNode [a, b, c] =
          Node.conditionalExpression a b c) ∧
        guard.types = ⟨TypeTag.booleanT⟩ ∧
        guard.values = ValuesDomain.topVal ∧
        guard.args = [Value.abstractV d, Value.emptyV] ∧
        (∀ x y, BuildNode.run guard._buildNode [x, y] =
          Node.binaryExpression "===" x y)) ∧
    (d.types.getType = TypeTag.objectT →
      d.values.includesValueOfType TypeTag.emptyT = true →
      d.promoteEmptyToUndefined promoteDom = Except.error Fault.fault) := by
  refine ⟨?_, ?_, ?_⟩
  · intro h
    unfold AVData.promoteEmptyToUndefined
    rw [h]
    simp
  · intro hp h1 h2 h3 h
    unfold AVData.promoteEmptyToUndefined AVData.clone Realm.createAbstract
    rw [h]
    simp only [Bool.true_eq_false, if_false, mkAbstractValue, hp, if_true]
    rw [if_neg (by simp [h1]), if_neg (by simp [h2, h3])]
    rw [if_neg (by simp [TypesDomain.getType]), if_neg (by simp [TypesDomain.getType])]
    cases hk : d.kind with
    | none =>
      refine ⟨_, _, rfl, ?_, rfl, rfl, rfl, rfl, fun a b c => rfl, rfl, rfl, rfl,
        fun x y => rfl⟩
      intro he
      exact args_ne_selfcycle d _ _ (by rw [← congrArg AVDataP.args he])
    | some s =>
      by_cases hs : s = "" <;> simp only [hs, if_true, if_false]
      · refine ⟨_, _, rfl, ?_, rfl, rfl, rfl, rfl, fun a b c => rfl, rfl, rfl, rfl,
          fun x y => rfl⟩
        intro he
        exact args_ne_selfcycle d _ _ (by rw [← congrArg AVDataP.args he])
      · refine ⟨_, _, rfl, ?_, rfl, rfl, rfl, rfl, fun a b c => rfl, rfl, rfl, rfl,
          fun x y => rfl⟩
        intro he
        exact args_ne_selfcycle d _ _ (by rw [← congrArg AVDataP.args he])
  · intro ho h
    unfold AVData.promoteEmptyToUndefined AVData.clone
    rw [h]
    simp only [Bool.true_eq_false, if_false]
    have hmk : mkAbstractValue d.realm d.types d.values d.args d._buildNode none none
        false = Except.error Fault.fault := by
      unfold mkAbstractValue
      cases hs : d.realm.speculative
      · rw [if_neg (by simp)]
      · rw [if_pos rfl, if_pos ⟨ho, rfl⟩]
    rw [hmk]

/-- A concrete symbolic value whose domain cannot contain the deletion
sentinel. -/
def noEmptyDomainValue : AVData :=
  ⟨⟨true⟩, ⟨TypeTag.numberT⟩, ⟨fun _ => false, fun _ => false⟩, [],
    BuildNode.fixed Node.nullLiteral, none, none, false⟩

/-- A concrete symbolic value over the top value domain (which includes
the deletion sentinel). -/
def topDomainValue : AVData :=
  ⟨⟨true⟩, ⟨TypeTag.numberT⟩, ValuesDomain.topVal, [],
    BuildNode.fixed Node.nullLiteral, none, none, false⟩

/-- C4 witness: all three branches of the amended claim evaluated at
concrete values, with the identity as the external sentinel-promotion
oracle. -/
theorem claim4_witness :
    AVData.promoteEmptyToUndefined (fun v => v) noEmptyDomainValue =
      Except.ok (Value.abstractV noEmptyDomainValue) ∧
    (∃ guard res,
      AVData.promoteEmptyToUndefined (fun v => v) topDomainValue =
        Except.ok (Value.abstractV res) ∧
      res ≠ topDomainValue ∧
      res.types = topDomainValue.types ∧
      res.values = (fun v => v) topDomainValue.values ∧
      res.args = [Value.abstractV guard, Value.undefinedV, Value.abstractV topDomainValue] ∧
      res.intrinsicName = none ∧
      (∀ a b c, BuildNode.run res._buildNode [a, b, c] =
        Node.conditionalExpression a b c) ∧
      guard.types = ⟨TypeTag.booleanT⟩ ∧
      guard.values = ValuesDomain.topVal ∧
      guard.args = [Value.abstractV topDomainValue, Value.emptyV] ∧
      (∀ x y, BuildNode.run guard._buildNode [x, y] =
        Node.binaryExpression "===" x y)) ∧
    AVData.promoteEmptyToUndefined (fun v => v) objTopValue =
      Except.error Fault.fault :=
  ⟨(claim4_promoteEmpty (fun v => v) noEmptyDomainValue).1 rfl,
   (claim4_promoteEmpty (fun v => v) topDomainValue).2.1 rfl (by intro h; cases h)
     (by intro h; cases h) (by intro h; cases h) rfl,
   (claim4_promoteEmpty (fun v => v) objTopValue).2.2 rfl rfl⟩

/-!  ## Effect Recorder claims  -/

/-- C9: every `emit*` operation appends exactly one entry at the end of
the body and changes nothing else (realm, allocator, and the previously
recorded entries and their order are untouched, and nothing is executed);
`empty()` holds exactly when no entry has been recorded. -/
theorem claim9_emit_append_only (g : Generator) (key str : String)
    (object value : Value) (desc : Descriptor) (args : List Value)
    (condFn : List Node → Node) :
    (∃ e, g.emitGlobalDeclaration key value = { g with body := g.body ++ [e] }) ∧
    (∃ e, g.emitGlobalAssignment key value = { g with body := g.body ++ [e] }) ∧
    (∃ e, g.emitGlobalDelete key = { g with body := g.body ++ [e] }) ∧
    (∃ e, g.emitPropertyAssignment object key value = { g with body := g.body ++ [e] }) ∧
    (∃ e, g.emitDefineProperty object key desc = { g with body := g.body ++ [e] }) ∧
    (∃ e, g.emitPropertyDelete object key = { g with body := g.body ++ [e] }) ∧
    (∃ e, g.emitConsoleLog str = { g with body := g.body ++ [e] }) ∧
    (∃ e, g.emitInvariant args condFn = { g with body := g.body ++ [e] }) ∧
    (g.empty = true ↔ g.body = []) := by
  refine ⟨⟨_, rfl⟩, ⟨_, rfl⟩, ⟨_, rfl⟩, ⟨_, rfl⟩, ?_, ⟨_, rfl⟩, ⟨_, rfl⟩, ⟨_, rfl⟩, ?_⟩
  · unfold Generator.emitDefineProperty
    split
    · exact ⟨_, rfl⟩
    · exact ⟨_, rfl⟩
  · simp [Generator.empty, Generator.emitPropertyAssignment, List.length_eq_zero]

/-- After `memoiseReference`, the key maps to the returned node. -/
theorem memoiseReference_mem (key : String) (pg : PreludeGenerator) :
    lookupRef key (pg.memoiseReference key).2.memoisedRefs =
      some (pg.memoiseReference key).1 := by
  cases h : lookupRef key pg.memoisedRefs with
  | some r =>
    unfold PreludeGenerator.memoiseReference
    rw [h]
    exact h
  | none =>
    unfold PreludeGenerator.memoiseReference
    rw [h]
    simp only
    rw [lookupRef_append, show pg.generateUid.2.memoisedRefs = pg.memoisedRefs from rfl, h]
    simp [lookupRef]

/-- A second `memoiseReference` request for the same key returns the
stored node and leaves the allocator (in particular its prelude)
unchanged. -/
theorem memoiseReference_stable (key : String) (pg : PreludeGenerator) :
    PreludeGenerator.memoiseReference key (pg.memoiseReference key).2 =
      ((pg.memoiseReference key).1, (pg.memoiseReference key).2) := by
  have h := memoiseReference_mem key pg
  generalize hq : pg.memoiseReference key = q at h ⊢
  obtain ⟨r, s⟩ := q
  dsimp only at h ⊢
  unfold PreludeGenerator.memoiseReference
  rw [h]

/-- C8: a fully-enumerable/configurable/writable data descriptor makes
`emitDefineProperty` degrade to `emitPropertyAssignment`; otherwise one
entry is appended whose dependencies backfill missing `value`/`get`/`set`
with the `undefined` constant, whose synthesized descriptor object
carries the accessor pair when a getter or setter is present and the
writable/value pair otherwise, and whose statement calls the
descriptor-definition intrinsic through the allocator's memoized
reference, which binds into the prelude at most once per allocator
lifetime. -/
theorem claim8_emitDefineProperty (g : Generator) (object : Value) (key : String)
    (desc : Descriptor) :
    (∀ x, desc.enumerable = true → desc.configurable = true → desc.writable = true →
      desc.value = some x →
      g.emitDefineProperty object key desc = g.emitPropertyAssignment object key x) ∧
    (¬(desc.enumerable = true ∧ desc.configurable = true ∧ desc.writable = true ∧
        desc.value.isSome = true) →
      ∃ e, g.emitDefineProperty object key desc = { g with body := g.body ++ [e] } ∧
        e.declaresDerivedId = none ∧
        e.args = [object, desc.value.getD Value.undefinedV, desc.get.getD Value.undefinedV,
          desc.set.getD Value.undefinedV] ∧
        (∀ ns pg, e.build ns pg =
          (Node.expressionStatement (Node.callExpression
              (pg.memoiseReference "Object.defineProperty").1
              [ns.getD 0 Node.nullLiteral, Node.stringLiteral key, Node.objectExpression
                ([Node.objectProperty (Node.identifier "enumerable")
                    (Node.booleanLiteral desc.enumerable),
                  Node.objectProperty (Node.identifier "configurable")
                    (Node.booleanLiteral desc.configurable)] ++
                 (if desc.get.isNone = true ∧ desc.set.isNone = true then
                   [Node.objectProperty (Node.identifier "writable")
                      (Node.booleanLiteral desc.writable),
                    Node.objectProperty (Node.identifier "value")
                      (ns.getD 1 Node.nullLiteral)]
                  else
                   [Node.objectProperty (Node.identifier "get") (ns.getD 2 Node.nullLiteral),
                    Node.objectProperty (Node.identifier "set")
                      (ns.getD 3 Node.nullLiteral)]))]),
            (pg.memoiseReference "Object.defineProperty").2))) ∧
    (∀ pg : PreludeGenerator,
      PreludeGenerator.memoiseReference "Object.defineProperty"
          (pg.memoiseReference "Object.defineProperty").2 =
        ((pg.memoiseReference "Object.defineProperty").1,
          (pg.memoiseReference "Object.defineProperty").2) ∧
      (PreludeGenerator.memoiseReference "Object.defineProperty"
          (pg.memoiseReference "Object.defineProperty").2).2.prelude =
        (pg.memoiseReference "Object.defineProperty").2.prelude) := by
  refine ⟨?_, ?_, ?_⟩
  · intro x he hc hw hv
    unfold Generator.emitDefineProperty
    rw [if_pos ⟨he, hc, hw, by rw [hv]; rfl⟩, hv]
    rfl
  · intro hfast
    unfold Generator.emitDefineProperty
    rw [if_neg hfast]
    exact ⟨_, rfl, rfl, rfl, fun ns pg => rfl⟩
  · intro pg
    exact ⟨memoiseReference_stable _ pg, by rw [memoiseReference_stable _ pg]⟩

/-- A generator over a speculative realm with empty body and a fresh
allocator. -/
def emptyGen : Generator := ⟨⟨true⟩, [], PreludeGenerator.new⟩

/-- A concrete plain data descriptor (the fast path of
`emitDefineProperty`). -/
def dataDesc : Descriptor := ⟨true, true, true, some Value.undefinedV, none, none⟩

/-- A concrete accessor descriptor with only a getter. -/
def getterDesc : Descriptor := ⟨false, false, false, none, some Value.undefinedV, none⟩

/-- C8 witness: the degrade-to-assignment fast path and the
descriptor-entry slow path evaluated at concrete descriptors. -/
theorem claim8_witness :
    emptyGen.emitDefineProperty Value.undefinedV "p" dataDesc =
      emptyGen.emitPropertyAssignment Value.undefinedV "p" Value.undefinedV ∧
    (∃ e, emptyGen.emitDefineProperty Value.undefinedV "q" getterDesc =
        { emptyGen with body := emptyGen.body ++ [e] } ∧
      e.declaresDerivedId = none ∧
      e.args = [Value.undefinedV, getterDesc.value.getD Value.undefinedV,
        getterDesc.get.getD Value.undefinedV, getterDesc.set.getD Value.undefinedV] ∧
      (∀ ns pg, e.build ns pg =
        (Node.expressionStatement (Node.callExpression
            (pg.memoiseReference "Object.defineProperty").1
            [ns.getD 0 Node.nullLiteral, Node.stringLiteral "q", Node.objectExpression
              ([Node.objectProperty (Node.identifier "enumerable")
                  (Node.booleanLiteral getterDesc.enumerable),
                Node.objectProperty (Node.identifier "configurable")
                  (Node.booleanLiteral getterDesc.configurable)] ++
               (if getterDesc.get.isNone = true ∧ getterDesc.set.isNone = true then
                 [Node.objectProperty (Node.identifier "writable")
                    (Node.booleanLiteral getterDesc.writable),
                  Node.objectProperty (Node.identifier "value")
                    (ns.getD 1 Node.nullLiteral)]
                else
                 [Node.objectProperty (Node.identifier "get") (ns.getD 2 Node.nullLiteral),
                  Node.objectProperty (Node.identifier "set")
                    (ns.getD 3 Node.nullLiteral)]))]),
          (pg.memoiseReference "Object.defineProperty").2))) :=
  ⟨(claim8_emitDefineProperty emptyGen Value.undefinedV "p" dataDesc).1
      Value.undefinedV rfl rfl rfl rfl,
   (claim8_emitDefineProperty emptyGen Value.undefinedV "q" getterDesc).2.1
      (by intro h; exact absurd h.1 (by decide))⟩

/-- Shape of every successful `derive`: the returned value's stable name
is the identifier minted from the current counter, and the counter
advances by exactly one. -/
theorem derive_ok_shape (types : TypesDomain) (values : ValuesDomain) (args : List Value)
    (bn : BuildNode) (kind : Option String) (g g' : Generator) (res : AVData) :
    Generator.derive types values args bn kind g = Except.ok (res, g') →
    res.intrinsicName = some ("_" ++ base62encode g.preludeGenerator.uidCounter) ∧
    g'.preludeGenerator.uidCounter = g.preludeGenerator.uidCounter + 1 := by
  intro h
  unfold Generator.derive at h
  by_cases hbn : deriveBuildNodeOk bn args = true
  case neg => rw [if_neg hbn] at h; cases h
  case pos =>
    rw [if_pos hbn] at h
    dsimp only at h
    cases hca : Realm.createAbstract g.realm types values args
        (BuildNode.fixed (Node.identifier g.preludeGenerator.generateUid.1)) kind with
    | error f => rw [hca] at h; cases h
    | ok res0 =>
      rw [hca] at h
      dsimp only at h
      cases hts : deriveTypeofString types.getType with
      | error f => rw [hts] at h; cases h
      | ok o =>
        rw [hts] at h
        cases o with
        | none =>
          dsimp only at h
          injection h with h2
          injection h2 with ha hb
          subst ha
          subst hb
          exact ⟨rfl, rfl⟩
        | some ts =>
          dsimp only at h
          injection h with h2
          injection h2 with ha hb
          subst ha
          subst hb
          exact ⟨rfl, rfl⟩

/-- C1: `derive` with Number type facts succeeds, mints the identifier of
the current counter (marking it derived and advancing the counter), and
appends exactly two body entries — the declaration and one trailing
invariant check whose condition is `typeof <id> !== "number"`; object
facts make the condition tolerate null via an `|| <id> === null`
disjunct; null/undefined facts fault; and two successive `derive` calls
never reuse an identifier. -/
theorem claim1_derive (g : Generator) (types : TypesDomain) (values : ValuesDomain)
    (args : List Value) (f : List Node → Node) (kind : Option String) :
    (g.realm.speculative = true → types.getType = TypeTag.numberT →
      ∃ res g' e1 e2,
        Generator.derive types values args (BuildNode.closure f) kind g =
          Except.ok (res, g') ∧
        res.intrinsicName = some ("_" ++ base62encode g.preludeGenerator.uidCounter) ∧
        g'.preludeGenerator.uidCounter = g.preludeGenerator.uidCounter + 1 ∧
        g'.preludeGenerator.derivedIds = g.preludeGenerator.derivedIds ++
          [Node.identifier ("_" ++ base62encode g.preludeGenerator.uidCounter)] ∧
        g'.body = g.body ++ [e1, e2] ∧
        e1.declaresDerivedId =
          some (Node.identifier ("_" ++ base62encode g.preludeGenerator.uidCounter)) ∧
        e2.declaresDerivedId = none ∧
        e2.args = [Value.abstractV res] ∧
        (∀ n pg, e2.build [n] pg = (Node.ifStatement
          (Node.binaryExpression "!==" (Node.unaryExpression "typeof" n)
            (Node.stringLiteral "number")) invariantThrowBlock, pg))) ∧
    (g.realm.speculative = true → types.getType = TypeTag.objectT →
      ∃ res g' e1 e2,
        Generator.derive types values args (BuildNode.closure f) kind g =
          Except.ok (res, g') ∧
        g'.body = g.body ++ [e1, e2] ∧
        (∀ n pg, e2.build [n] pg = (Node.ifStatement
          (Node.logicalExpression "||"
            (Node.binaryExpression "!==" (Node.unaryExpression "typeof" n)
              (Node.stringLiteral "object"))
            (Node.binaryExpression "===" n Node.nullLiteral)) invariantThrowBlock, pg))) ∧
    (types.getType = TypeTag.nullT ∨ types.getType = TypeTag.undefinedT →
      Generator.derive types values args (BuildNode.closure f) kind g =
        Except.error Fault.fault) ∧
    (∀ (g2 g3 : Generator) (types2 : TypesDomain) (values2 : ValuesDomain)
        (args2 : List Value) (bn bn2 : BuildNode) (kind2 : Option String)
        (r1 r2 : AVData),
      Generator.derive types values args bn kind g = Except.ok (r1, g2) →
      Generator.derive types2 values2 args2 bn2 kind2 g2 = Except.ok (r2, g3) →
      r1.intrinsicName ≠ r2.intrinsicName) := by
  refine ⟨?_, ?_, ?_, ?_⟩
  · intro hp ht
    unfold Generator.derive
    rw [if_pos (show deriveBuildNodeOk (BuildNode.closure f) args = true from rfl)]
    dsimp only
    have hca : Realm.createAbstract g.realm types values args
        (BuildNode.fixed (Node.identifier g.preludeGenerator.generateUid.1)) kind =
        Except.ok ⟨g.realm, types, values, args,
          BuildNode.fixed (Node.identifier g.preludeGenerator.generateUid.1), kind, none,
          decide (types.getType = TypeTag.objectT)⟩ := by
      unfold Realm.createAbstract mkAbstractValue
      rw [if_pos hp, if_neg (by rw [ht]; simp), if_neg (by rw [ht]; simp)]
    rw [hca]
    dsimp only
    rw [ht]
    simp only [deriveTypeofString]
    have hc : ∀ n : Node, deriveInvariantCondition "number" [n] =
        Node.binaryExpression "!==" (Node.unaryExpression "typeof" n)
          (Node.stringLiteral "number") := by
      intro n
      simp only [deriveInvariantCondition]
      rw [if_neg (by decide)]
      rfl
    refine ⟨_, _, _, _, rfl, rfl, rfl, rfl, List.append_assoc _ _ _, rfl, rfl, rfl, ?_⟩
    intro n pg
    show (Node.ifStatement (deriveInvariantCondition "number" [n]) invariantThrowBlock, pg) = _
    rw [hc n]
  · intro hp ht
    unfold Generator.derive
    rw [if_pos (show deriveBuildNodeOk (BuildNode.closure f) args = true from rfl)]
    dsimp only
    have hca : Realm.createAbstract g.realm types values args
        (BuildNode.fixed (Node.identifier g.preludeGenerator.generateUid.1)) kind =
        Except.ok ⟨g.realm, types, values, args,
          BuildNode.fixed (Node.identifier g.preludeGenerator.generateUid.1), kind, none,
          decide (types.getType = TypeTag.objectT)⟩ := by
      unfold Realm.createAbstract mkAbstractValue
      rw [if_pos hp, if_neg (by rw [ht]; simp), if_neg (by rw [ht]; simp)]
    rw [hca]
    dsimp only
    rw [ht]
    simp only [deriveTypeofString]
    have hc : ∀ n : Node, deriveInvariantCondition "object" [n] =
        Node.logicalExpression "||"
          (Node.binaryExpression "!==" (Node.unaryExpression "typeof" n)
            (Node.stringLiteral "object"))
          (Node.binaryExpression "===" n Node.nullLiteral) := by
      intro n
      simp only [deriveInvariantCondition]
      rw [if_pos trivial]
      rfl
    refine ⟨_, _, _, _, rfl, List.append_assoc _ _ _, ?_⟩
    intro n pg
    show (Node.ifStatement (deriveInvariantCondition "object" [n]) invariantThrowBlock, pg) = _
    rw [hc n]
  · intro h
    unfold Generator.derive
    rw [if_pos (show deriveBuildNodeOk (BuildNode.closure f) args = true from rfl)]
    dsimp only
    have hca : Realm.createAbstract g.realm types values args
        (BuildNode.fixed (Node.identifier g.preludeGenerator.generateUid.1)) kind =
        Except.error Fault.fault := by
      unfold Realm.createAbstract mkAbstractValue
      cases hs : g.realm.speculative
      · rw [if_neg (by simp)]
      · rw [if_pos rfl,
          if_neg (by rcases h with h | h <;> rw [h] <;> simp),
          if_pos h]
    rw [hca]
  · intro g2 g3 types2 values2 args2 bn bn2 kind2 r1 r2 h1 h2
    have s1 := derive_ok_shape types values args bn kind g g2 r1 h1
    have s2 := derive_ok_shape types2 values2 args2 bn2 kind2 g2 g3 r2 h2
    rw [s1.1, s2.1]
    intro he
    injection he with he2
    have hinj := uidString_inj _ _ he2
    omega

/-- C1 witness: `derive` with Number facts on a concrete fresh generator,
and the null-category fault, evaluated by applying the claim at concrete
inputs. -/
theorem claim1_witness :
    (∃ res g' e1 e2,
      Generator.derive ⟨TypeTag.numberT⟩ ValuesDomain.topVal []
          (BuildNode.closure fun _ => Node.nullLiteral) none emptyGen =
        Except.ok (res, g') ∧
      res.intrinsicName = some ("_" ++ base62encode emptyGen.preludeGenerator.uidCounter) ∧
      g'.preludeGenerator.uidCounter = emptyGen.preludeGenerator.uidCounter + 1 ∧
      g'.preludeGenerator.derivedIds = emptyGen.preludeGenerator.derivedIds ++
        [Node.identifier ("_" ++ base62encode emptyGen.preludeGenerator.uidCounter)] ∧
      g'.body = emptyGen.body ++ [e1, e2] ∧
      e1.declaresDerivedId =
        some (Node.identifier ("_" ++ base62encode emptyGen.preludeGenerator.uidCounter)) ∧
      e2.declaresDerivedId = none ∧
      e2.args = [Value.abstractV res] ∧
      (∀ n pg, e2.build [n] pg = (Node.ifStatement
        (Node.binaryExpression "!==" (Node.unaryExpression "typeof" n)
          (Node.stringLiteral "number")) invariantThrowBlock, pg))) ∧
    Generator.derive ⟨TypeTag.nullT⟩ ValuesDomain.topVal []
        (BuildNode.closure fun _ => Node.nullLiteral) none emptyGen =
      Except.error Fault.fault :=
  ⟨(claim1_derive emptyGen ⟨TypeTag.numberT⟩ ValuesDomain.topVal []
      (fun _ => Node.nullLiteral) none).1 rfl rfl,
   (claim1_derive emptyGen ⟨TypeTag.nullT⟩ ValuesDomain.topVal []
      (fun _ => Node.nullLiteral) none).2.2.1 (Or.inl rfl)⟩
